import Mathlib

/-!
A verification model of the `demonstrate` declarative-testing macro.

The crate's entry point (`src/lib.rs`, `demonstrate`) parses its input token
stream into a `Root` tree of blocks and generates the expanded test code from
it.  The two stages live in the crate modules `block` (the parser, giving
`Root`) and `generate` (the `Generate` trait); those modules are declared and
called from `src/lib.rs` but their files are not part of the sources at hand,
so the parser and generator are modelled here from the specification, while
the concrete expansions documented on the `demonstrate` macro itself
(`src/lib.rs` doc examples) pin the expected outputs.

Modelling conventions: statements, attribute annotations and type expressions
are opaque token spans, modelled as strings; the token stream boundary is
modelled at the level of raw blocks (the external tokenizer is out of scope
per the specification, section 1); fallible parsing returns `Except`.
-/

namespace Demonstrate

/-- Opaque statement token span (spec section 3: bodies are ordered sequences
of opaque statement tokens). -/
abbrev Stmt := String

/-- Opaque attribute annotation, carried verbatim (spec section 3). -/
abbrev Attr := String

/-- Modelled from the spec: the optional signature of a scope or unit, a
return type paired with an async marker (spec sections 3 and 4.1; the crate's
`block` module is not among the sources). -/
structure Signature where
  returnType : String
  isAsync : Bool
  deriving DecidableEq, Repr

/-- The keyword that introduced a scope block: `describe` or `context`
(spec section 4.1: synonyms). -/
inductive ScopeKw where
  | describeKw
  | contextKw
  deriving DecidableEq, Repr

/-- The keyword that introduced a unit block: `it` or `test`
(spec section 4.1: synonyms). -/
inductive UnitKw where
  | itKw
  | testKw
  deriving DecidableEq, Repr

/-- Modelled from the spec: the surface form of one block of the DSL, after
tokenization but before parsing/validation.  Scope and unit blocks remember
which of the two synonymous keywords introduced them (spec section 4.1
grammar); the crate's `block` module is not among the sources. -/
inductive RawBlock where
  | scope (kw : ScopeKw) (name : String) (attrs : List Attr)
      (sig : Option Signature) (children : List RawBlock)
  | unit (kw : UnitKw) (name : String) (attrs : List Attr)
      (sig : Option Signature) (body : List Stmt)
  | setupHook (body : List Stmt)
  | teardownHook (body : List Stmt)
  deriving Repr

/-- Modelled from the spec: the validated parsed tree node (spec section 3,
`Block` tagged variant); the keyword synonyms have been resolved into the
single `scope` (respectively `unit`) variant.  The crate's `block` module is
not among the sources. -/
inductive Block where
  | scope (name : String) (attrs : List Attr) (sig : Option Signature)
      (children : List Block)
  | unit (name : String) (attrs : List Attr) (sig : Option Signature)
      (body : List Stmt)
  | setupHook (body : List Stmt)
  | teardownHook (body : List Stmt)
  deriving Repr

/-- Modelled from the spec: the validated top-level container
(spec section 3, `Root`). -/
structure Root where
  children : List Block
  deriving Repr

/-- Modelled from the spec: the error taxonomy of the parser
(spec section 7). -/
inductive ParseError where
  | UnexpectedToken
  | UnterminatedBlock
  | MissingIdentifier
  | DuplicateHook
  | InvalidSignature
  deriving DecidableEq, Repr

/-- Whether a raw block is a setup hook. -/
def isSetupHook : RawBlock → Bool
  | .setupHook _ => true
  | _ => false

/-- Whether a raw block is a teardown hook. -/
def isTeardownHook : RawBlock → Bool
  | .teardownHook _ => true
  | _ => false

/-- Modelled from the spec: the duplicate-hook validation scan over the
direct children of one block.  The two flags record whether a setup
(respectively teardown) hook has already been seen at this level; a second
one is a `DuplicateHook` error, detected fail-fast on the offending child
(spec sections 4.1 and 7). -/
def checkHooks : Bool → Bool → List RawBlock → Except ParseError Unit
  | _, _, [] => .ok ()
  | seenS, seenT, .setupHook _ :: rest =>
      if seenS then .error .DuplicateHook else checkHooks true seenT rest
  | seenS, seenT, .teardownHook _ :: rest =>
      if seenT then .error .DuplicateHook else checkHooks seenS true rest
  | seenS, seenT, _ :: rest => checkHooks seenS seenT rest

mutual
/-- Modelled from the spec: parse/validate one raw block into a `Block`.
The introducing keyword is dropped (synonyms produce the same variant), and
the direct children of a scope are validated for duplicate hooks; the first
error aborts (fail-fast, spec sections 4.1 and 7). -/
def parseBlock : RawBlock → Except ParseError Block
  | .scope _kw name attrs sig cs =>
      match checkHooks false false cs with
      | .error e => .error e
      | .ok _ =>
          match parseBlocks cs with
          | .error e => .error e
          | .ok cs' => .ok (.scope name attrs sig cs')
  | .unit _kw name attrs sig body => .ok (.unit name attrs sig body)
  | .setupHook body => .ok (.setupHook body)
  | .teardownHook body => .ok (.teardownHook body)

/-- Modelled from the spec: parse a sequence of raw blocks in order,
aborting at the first error. -/
def parseBlocks : List RawBlock → Except ParseError (List Block)
  | [] => .ok []
  | b :: bs =>
      match parseBlock b with
      | .error e => .error e
      | .ok b' =>
          match parseBlocks bs with
          | .error e => .error e
          | .ok bs' => .ok (b' :: bs')
end

/-- Modelled from the spec: `parse(tokens) -> Root | ParseError`
(spec section 4.1).  The root's direct children are validated for duplicate
hooks exactly like a scope's. -/
def parseRoot (input : List RawBlock) : Except ParseError Root :=
  match checkHooks false false input with
  | .error e => .error e
  | .ok _ =>
      match parseBlocks input with
      | .error e => .error e
      | .ok cs => .ok ⟨cs⟩

/-- A generated output node: a scope (a `mod` in the expansion) or a unit
(a test function).  `attrs` is the full ordered attribute list emitted on
the node, markers included. -/
inductive OutputNode where
  | scope (name : String) (attrs : List Attr) (children : List OutputNode)
  | unit (name : String) (attrs : List Attr) (sig : Option Signature)
      (body : List Stmt)
  deriving Repr

/-- The test-only compilation marker emitted on top-level items
(`src/lib.rs` doc examples: `#[cfg(test)]`). -/
def cfgTestAttr : Attr := "#[cfg(test)]"

/-- The test marker emitted on every generated unit
(`src/lib.rs` doc examples: `#[test]`). -/
def testAttr : Attr := "#[test]"

/-- The markers a node receives from its position: top-level items are
tagged with the test-only compilation marker, nested ones are not. -/
def topMarker (tl : Bool) : List Attr := if tl then [cfgTestAttr] else []

/-- Modelled from the spec: the inherited context threaded down the
generation recursion (spec section 4.2). -/
structure Context where
  setup_chain : List (List Stmt)
  teardown_chain : List (List Stmt)
  default_signature : Option Signature
  deriving DecidableEq, Repr

/-- The body of the first setup hook among a list of children, if any. -/
def findSetup : List Block → Option (List Stmt)
  | [] => none
  | .setupHook b :: _ => some b
  | _ :: rest => findSetup rest

/-- The body of the first teardown hook among a list of children, if any. -/
def findTeardown : List Block → Option (List Stmt)
  | [] => none
  | .teardownHook b :: _ => some b
  | _ :: rest => findTeardown rest

/-- Modelled from the spec: the context passed to the children of a scope:
the scope's own setup (teardown) hook body, if present, is appended at the
end of the corresponding chain, and the scope's own signature, if present,
replaces the inherited default (spec section 4.2, scope rule, steps 1-2). -/
def scopeCtx (ctx : Context) (sig : Option Signature) (cs : List Block) :
    Context :=
  ⟨ctx.setup_chain ++ (findSetup cs).toList,
   ctx.teardown_chain ++ (findTeardown cs).toList,
   match sig with
   | some s => some s
   | none => ctx.default_signature⟩

mutual
/-- Modelled from the spec: generate the expansion of one block under the
inherited context `ctx`; `tl` tells whether the node is emitted directly
under the root (and hence receives the test-only compilation marker).
Scopes recurse with the extended context; units receive the concatenated
setup chain before and teardown chain after their own body, the test marker
before their own attributes, and their own signature else the inherited
default; hooks emit nothing of their own (spec section 4.2,
`src/lib.rs` doc examples). -/
def generateBlock (ctx : Context) (tl : Bool) : Block → Option OutputNode
  | .scope name attrs sig cs =>
      some (.scope name (topMarker tl ++ attrs)
        (generateList (scopeCtx ctx sig cs) false cs))
  | .unit name attrs sig body =>
      some (.unit name (topMarker tl ++ testAttr :: attrs)
        (match sig with
         | some s => some s
         | none => ctx.default_signature)
        (ctx.setup_chain.flatten ++ body ++ ctx.teardown_chain.flatten))
  | .setupHook _ => none
  | .teardownHook _ => none

/-- Generate the expansions of a list of sibling blocks, in declaration
order, under one shared context. -/
def generateList (ctx : Context) (tl : Bool) : List Block → List OutputNode
  | [] => []
  | b :: bs => (generateBlock ctx tl b).toList ++ generateList ctx tl bs
end

/-- Modelled from the spec: `generate(tree) -> OutputTree`
(spec section 4.2).  The root starts from the empty context, is processed
like a scope (its own hooks, if any, seed the chains) and emits its children
as a flat top-level sequence tagged as test-only. -/
def Root.generate (r : Root) : List OutputNode :=
  generateList (scopeCtx ⟨[], [], none⟩ none r.children) true r.children

/-- The entry point modelled after `demonstrate` in `src/lib.rs`: parse the
input into a `Root` and, on success, emit the generated output; a parse or
validation error aborts with that diagnostic and emits nothing. -/
def demonstrate (input : List RawBlock) : Except ParseError (List OutputNode) :=
  match parseRoot input with
  | .error e => .error e
  | .ok root => .ok root.generate

/-- The raw input of the documented concrete scenario (`src/lib.rs` doc
example, spec section 8): scope `tests` with a setup hook, two units, and a
nested scope `nested` with its own setup hook and one unit. -/
def exampleInput : List RawBlock :=
  [.scope .describeKw "tests" [] none
    [.setupHook ["one = 1"],
     .unit .itKw "one" [] none ["assert(one == 1)"],
     .unit .itKw "zero" [] none ["assert(one - 1 == 0)"],
     .scope .describeKw "nested" [] none
       [.setupHook ["two = 2"],
        .unit .itKw "two" [] none ["assert(one + 1 == two)"]]]]

/-- The expanded output documented for `exampleInput`. -/
def exampleOutput : List OutputNode :=
  [.scope "tests" [cfgTestAttr]
    [.unit "one" [testAttr] none ["one = 1", "assert(one == 1)"],
     .unit "zero" [testAttr] none ["one = 1", "assert(one - 1 == 0)"],
     .scope "nested" []
       [.unit "two" [testAttr] none
         ["one = 1", "two = 2", "assert(one + 1 == two)"]]]]

/-- Claim C2: on the documented scenario (scope `tests` with setup `one = 1`,
units `one` and `zero`, nested scope `nested` with setup `two = 2` and unit
`two`), the entry point produces exactly the documented expansion: each
unit's body is the outer-to-inner setup chain followed by its own body, and
the nesting and names are preserved. -/
theorem concrete_scenario_output : demonstrate exampleInput = .ok exampleOutput := by
  rfl

/-- Claim C6: a single scope containing a single unit and no hooks expands to
exactly one scope node named after the scope identifier, containing exactly
one unit node named after the unit identifier, whose body is the unit's own
body with nothing prepended or appended. -/
theorem single_scope_single_unit (kw : ScopeKw) (sn : String) (sa : List Attr)
    (ss : Option Signature) (ukw : UnitKw) (un : String) (ua : List Attr)
    (us : Option Signature) (ub : List Stmt) :
    ∃ es : Option Signature,
      demonstrate [.scope kw sn sa ss [.unit ukw un ua us ub]] =
        .ok [.scope sn (cfgTestAttr :: sa) [.unit un (testAttr :: ua) es ub]] := by
  refine ⟨match us with
          | some s => some s
          | none =>
            match ss with
            | some s => some s
            | none => none, ?_⟩
  cases us <;> cases ss <;>
    simp [demonstrate, parseRoot, checkHooks, parseBlocks, parseBlock,
      Root.generate, generateList, generateBlock, scopeCtx, findSetup,
      findTeardown, topMarker]

/-- Claim C3: attribute annotations appear verbatim on their own node's
output only and are never inherited by or duplicated onto descendants: a
scope's generated node carries exactly its own attributes after the position
markers, and the generated descendants are one and the same term whatever
the scope's attributes are (the context passed down never contains them);
likewise a unit's attributes only decorate its own node. -/
theorem attrs_verbatim_own_node_only (ctx : Context) (tl : Bool) (n : String)
    (sig : Option Signature) (cs : List Block) (attrs attrs' : List Attr)
    (un : String) (usig : Option Signature) (ub : List Stmt) :
    (generateBlock ctx tl (.scope n attrs sig cs) =
        some (.scope n (topMarker tl ++ attrs)
          (generateList (scopeCtx ctx sig cs) false cs)) ∧
      generateBlock ctx tl (.scope n attrs' sig cs) =
        some (.scope n (topMarker tl ++ attrs')
          (generateList (scopeCtx ctx sig cs) false cs))) ∧
    (generateBlock ctx tl (.unit un attrs usig ub) =
        some (.unit un (topMarker tl ++ testAttr :: attrs)
          (match usig with
           | some s => some s
           | none => ctx.default_signature)
          (ctx.setup_chain.flatten ++ ub ++ ctx.teardown_chain.flatten)) ∧
      generateBlock ctx tl (.unit un attrs' usig ub) =
        some (.unit un (topMarker tl ++ testAttr :: attrs')
          (match usig with
           | some s => some s
           | none => ctx.default_signature)
          (ctx.setup_chain.flatten ++ ub ++ ctx.teardown_chain.flatten))) :=
  ⟨⟨rfl, rfl⟩, rfl, rfl⟩

/-- Claim C10: only items emitted directly under the root carry the
test-only compilation marker `#[cfg(test)]` (the root generates its children
at top level, scopes generate theirs as nested), nested scopes are plain,
and every generated unit carries the `#[test]` marker placed immediately
before the unit's own attribute annotations. -/
theorem cfg_test_and_test_markers (ctx : Context) (n : String)
    (attrs : List Attr) (sig : Option Signature) (cs : List Block)
    (un : String) (ua : List Attr) (us : Option Signature) (ub : List Stmt)
    (r : Root) :
    generateBlock ctx true (.scope n attrs sig cs) =
      some (.scope n (cfgTestAttr :: attrs)
        (generateList (scopeCtx ctx sig cs) false cs)) ∧
    generateBlock ctx false (.scope n attrs sig cs) =
      some (.scope n attrs (generateList (scopeCtx ctx sig cs) false cs)) ∧
    generateBlock ctx true (.unit un ua us ub) =
      some (.unit un (cfgTestAttr :: testAttr :: ua)
        (match us with
         | some s => some s
         | none => ctx.default_signature)
        (ctx.setup_chain.flatten ++ ub ++ ctx.teardown_chain.flatten)) ∧
    generateBlock ctx false (.unit un ua us ub) =
      some (.unit un (testAttr :: ua)
        (match us with
         | some s => some s
         | none => ctx.default_signature)
        (ctx.setup_chain.flatten ++ ub ++ ctx.teardown_chain.flatten)) ∧
    Root.generate r =
      generateList (scopeCtx ⟨[], [], none⟩ none r.children) true r.children :=
  ⟨rfl, rfl, rfl, rfl, rfl⟩

/-- Claim C7: the transformation is a pure deterministic function: any two
runs of the entry point on the same input yield the same result. -/
theorem deterministic (input : List RawBlock)
    (r1 r2 : Except ParseError (List OutputNode))
    (h1 : r1 = demonstrate input) (h2 : r2 = demonstrate input) : r1 = r2 :=
  h1.trans h2.symm

/-- Witness for C7: two runs on the documented example agree. -/
theorem deterministic_witness :
    demonstrate exampleInput = demonstrate exampleInput :=
  deterministic exampleInput (demonstrate exampleInput)
    (demonstrate exampleInput) rfl rfl

/-- Claim C9: error propagation is fail-fast and atomic: whenever parsing or
validation fails, the entry point surfaces that very error and emits no
output at all (the error branch carries no output tree). -/
theorem fail_fast_no_output (input : List RawBlock) (e : ParseError)
    (h : parseRoot input = .error e) : demonstrate input = .error e := by
  simp [demonstrate, h]

/-- Witness for C9: two teardown hooks at the root make parsing fail, and the
entry point surfaces exactly that error with no output. -/
theorem fail_fast_no_output_witness :
    parseRoot [RawBlock.teardownHook [], RawBlock.teardownHook []] =
      .error .DuplicateHook ∧
    demonstrate [RawBlock.teardownHook [], RawBlock.teardownHook []] =
      .error .DuplicateHook :=
  ⟨rfl, fail_fast_no_output _ _ rfl⟩

/-- The body of the leftmost innermost generated node: the unit's body when
the node is a unit, else the first child's, recursively.  Extracts the leaf
unit of a tower of nested scopes. -/
def leafBody : OutputNode → List Stmt
  | .unit _ _ _ b => b
  | .scope _ _ [] => []
  | .scope _ _ (c :: _) => leafBody c

/-- The signature of the leftmost innermost generated node. -/
def leafSig : OutputNode → Option Signature
  | .unit _ _ s _ => s
  | .scope _ _ [] => none
  | .scope _ _ (c :: _) => leafSig c

/-- A tower of nested scopes, each declaring a setup hook, with the given
block at the innermost position: `nestSetup [(n1, s1), (n2, s2)] b` is scope
`n1` with setup `s1` containing scope `n2` with setup `s2` containing `b`. -/
def nestSetup : List (String × List Stmt) → Block → Block
  | [], b => b
  | l :: rest, b => .scope l.1 [] none [.setupHook l.2, nestSetup rest b]

/-- A setup-hook tower with a unit inside is never itself a setup hook, so
it contributes no setup body to the level above it. -/
theorem findSetup_nestSetup (levels : List (String × List Stmt))
    (name : String) (attrs : List Attr) (sig : Option Signature)
    (body : List Stmt) :
    findSetup [nestSetup levels (.unit name attrs sig body)] = none := by
  cases levels <;> rfl

/-- A setup-hook tower with a unit inside is never a teardown hook. -/
theorem findTeardown_nestSetup (levels : List (String × List Stmt))
    (name : String) (attrs : List Attr) (sig : Option Signature)
    (body : List Stmt) :
    findTeardown [nestSetup levels (.unit name attrs sig body)] = none := by
  cases levels <;> rfl

/-- Generating a setup-hook tower under any incoming context yields a node
whose leaf unit's body is the flattened setup chain - the inherited chain
extended by each level's setup body, outer before inner - followed by the
unit's own body and the flattened inherited teardown chain. -/
theorem generate_nestSetup (name : String) (attrs : List Attr)
    (sig : Option Signature) (body : List Stmt) :
    ∀ (levels : List (String × List Stmt)) (ctx : Context) (tl : Bool),
    ∃ out,
      generateBlock ctx tl (nestSetup levels (.unit name attrs sig body)) =
        some out ∧
      leafBody out =
        (ctx.setup_chain ++ levels.map Prod.snd).flatten ++ body ++
          ctx.teardown_chain.flatten := by
  intro levels
  induction levels with
  | nil =>
      intro ctx tl
      exact ⟨_, rfl, by simp [nestSetup, generateBlock, leafBody]⟩
  | cons l rest ih =>
      intro ctx tl
      obtain ⟨out', hgen, hbody⟩ :=
        ih (scopeCtx ctx none
            [.setupHook l.2, nestSetup rest (.unit name attrs sig body)]) false
      refine ⟨_, rfl, ?_⟩
      simp only [nestSetup, generateList, generateBlock, Option.toList,
        List.nil_append, List.append_nil, hgen, leafBody]
      rw [hbody]
      simp [scopeCtx, findSetup, findTeardown, findTeardown_nestSetup,
        List.append_assoc]

/-- Claim C1: in a tree of nested scopes each declaring a setup hook, the
leaf unit's generated body is the concatenation of every ancestor scope's
setup-hook body in outer-to-inner order followed by the unit's own body (and
nothing else, since no teardown hooks are declared). -/
theorem setup_chain_outer_to_inner (levels : List (String × List Stmt))
    (name : String) (attrs : List Attr) (sig : Option Signature)
    (body : List Stmt) :
    ∃ out,
      Root.generate ⟨[nestSetup levels (.unit name attrs sig body)]⟩ =
        [out] ∧
      leafBody out = (levels.map Prod.snd).flatten ++ body := by
  obtain ⟨out, hgen, hbody⟩ :=
    generate_nestSetup name attrs sig body levels
      (scopeCtx ⟨[], [], none⟩ none
        [nestSetup levels (.unit name attrs sig body)]) true
  refine ⟨out, ?_, ?_⟩
  · simp [Root.generate, generateList, hgen]
  · rw [hbody]
    simp [scopeCtx, findSetup_nestSetup, findTeardown_nestSetup]

/-- A tower of nested scopes declaring neither hooks nor signatures. -/
def nestPlain : List String → Block → Block
  | [], b => b
  | n :: rest, b => .scope n [] none [nestPlain rest b]

/-- Generating a plain tower leaves the default signature untouched: the
leaf unit, which declares no signature of its own, receives exactly the
incoming context's default signature. -/
theorem generate_nestPlain (un : String) (ua : List Attr) (ub : List Stmt) :
    ∀ (mids : List String) (ctx : Context) (tl : Bool),
    ∃ out,
      generateBlock ctx tl (nestPlain mids (.unit un ua none ub)) = some out ∧
      leafSig out = ctx.default_signature := by
  intro mids
  induction mids with
  | nil =>
      intro ctx tl
      exact ⟨_, rfl, rfl⟩
  | cons n rest ih =>
      intro ctx tl
      obtain ⟨out', hgen, hsig⟩ :=
        ih (scopeCtx ctx none [nestPlain rest (.unit un ua none ub)]) false
      refine ⟨_, rfl, ?_⟩
      simp only [nestPlain, generateList, generateBlock, Option.toList,
        List.nil_append, List.append_nil, hgen, leafSig]
      rw [hsig]
      simp [scopeCtx]

/-- Claim C4 as amended: a signature declared on a scope becomes the
effective signature of every descendant unit that declares no signature of
its own and is separated from it only by scopes that declare no signature of
their own (the nearest declared signature wins); and a unit that declares
its own signature keeps exactly that signature regardless of the inherited
default, fully replacing it. -/
theorem scope_signature_inheritance (ctx : Context) (tl : Bool)
    (n0 : String) (a0 : List Attr) (s : Signature) (mids : List String)
    (un : String) (ua : List Attr) (ub : List Stmt) :
    (∃ out,
      generateBlock ctx tl
          (.scope n0 a0 (some s) [nestPlain mids (.unit un ua none ub)]) =
        some out ∧
      leafSig out = some s) ∧
    ∀ s' : Signature, ∃ out,
      generateBlock ctx tl (.unit un ua (some s') ub) = some out ∧
      leafSig out = some s' := by
  constructor
  · obtain ⟨out', hgen, hsig⟩ :=
      generate_nestPlain un ua ub mids
        (scopeCtx ctx (some s) [nestPlain mids (.unit un ua none ub)]) false
    refine ⟨_, rfl, ?_⟩
    simp only [generateBlock, generateList, Option.toList, List.nil_append,
      List.append_nil, hgen, leafSig]
    rw [hsig]
    simp [scopeCtx]
  · intro s'
    exact ⟨_, rfl, rfl⟩

/-- A concrete outer signature used in the C4 counterexample. -/
def sigOuter : Signature := ⟨"OuterType", false⟩

/-- A concrete inner signature used in the C4 counterexample. -/
def sigInner : Signature := ⟨"InnerType", false⟩

/-- Counterexample to claim C4 as stated: in scope `a` declaring signature
`OuterType` containing scope `b` declaring signature `InnerType` containing
unit `u` with no signature of its own, the descendant unit `u` is generated
with signature `InnerType`, not the ancestor scope `a`'s `OuterType`: a
scope's signature does not become the effective signature of every
descendant unit lacking its own, because a nearer scope's declaration
replaces it. -/
theorem scope_signature_not_always_outer :
    demonstrate
        [.scope .describeKw "a" [] (some sigOuter)
          [.scope .describeKw "b" [] (some sigInner)
            [.unit .itKw "u" [] none ["stmt"]]]] =
      .ok [.scope "a" [cfgTestAttr]
            [.scope "b" []
              [.unit "u" [testAttr] (some sigInner) ["stmt"]]]] ∧
    some sigInner ≠ some sigOuter :=
  ⟨rfl, by decide⟩

/-- A second setup hook, or a second teardown hook, occurs among the direct
children `l` of one block. -/
def dupDirect (l : List RawBlock) : Bool :=
  decide (2 ≤ l.countP isSetupHook) || decide (2 ≤ l.countP isTeardownHook)

mutual
/-- A second setup or teardown hook occurs among the direct children of some
scope inside the raw block `b`. -/
def anyDup : RawBlock → Bool
  | .scope _ _ _ _ cs => dupDirect cs || anyDupList cs
  | _ => false

/-- A second setup or teardown hook occurs inside some element of `l`. -/
def anyDupList : List RawBlock → Bool
  | [] => false
  | b :: bs => anyDup b || anyDupList bs
end

/-- The duplicate-hook scan either succeeds or reports `DuplicateHook`: no
other error kind arises from it. -/
theorem checkHooks_ok_or_dup :
    ∀ (l : List RawBlock) (s t : Bool),
      checkHooks s t l = .ok () ∨ checkHooks s t l = .error .DuplicateHook := by
  intro l
  induction l with
  | nil => intro s t; left; rfl
  | cons b bs ih =>
      intro s t
      cases b with
      | scope kw n a sg cs => exact ih s t
      | unit kw n a sg body => exact ih s t
      | setupHook body =>
          cases s with
          | false => exact ih true t
          | true => right; rfl
      | teardownHook body =>
          cases t with
          | false => exact ih s true
          | true => right; rfl

/-- The duplicate-hook scan succeeds exactly when each kind of hook occurs
at most once among the children, counting one occurrence already seen for
each raised flag. -/
theorem checkHooks_ok_iff :
    ∀ (l : List RawBlock) (s t : Bool),
      checkHooks s t l = .ok () ↔
        l.countP isSetupHook + (if s then 1 else 0) ≤ 1 ∧
        l.countP isTeardownHook + (if t then 1 else 0) ≤ 1 := by
  intro l
  induction l with
  | nil =>
      intro s t
      cases s <;> cases t <;> simp [checkHooks]
  | cons b bs ih =>
      intro s t
      cases b <;> cases s <;> cases t <;>
        simp [checkHooks, List.countP_cons, isSetupHook, isTeardownHook, ih]

/-- A direct duplicate makes the scan report `DuplicateHook`. -/
theorem checkHooks_error_of_dupDirect (l : List RawBlock)
    (h : dupDirect l = true) :
    checkHooks false false l = .error .DuplicateHook := by
  rcases checkHooks_ok_or_dup l false false with hok | hdup
  · exfalso
    have hcounts := (checkHooks_ok_iff l false false).mp hok
    simp at hcounts
    simp [dupDirect] at h
    omega
  · exact hdup

/-- Without a direct duplicate the scan succeeds. -/
theorem checkHooks_ok_of_not_dupDirect (l : List RawBlock)
    (h : dupDirect l = false) : checkHooks false false l = .ok () := by
  apply (checkHooks_ok_iff l false false).mpr
  simp [dupDirect] at h
  simp
  omega

mutual
/-- Parsing a raw block with no duplicate hooks anywhere inside succeeds. -/
theorem parseBlock_ok_of_noDup : ∀ b : RawBlock, anyDup b = false →
    ∃ b', parseBlock b = .ok b'
  | .scope kw n a sg cs, h => by
      have hp : dupDirect cs = false ∧ anyDupList cs = false := by
        simpa [anyDup] using h
      obtain ⟨cs', hcs⟩ := parseBlocks_ok_of_noDup cs hp.2
      exact ⟨.scope n a sg cs',
        by simp [parseBlock, checkHooks_ok_of_not_dupDirect cs hp.1, hcs]⟩
  | .unit kw n a sg body, _ => ⟨.unit n a sg body, rfl⟩
  | .setupHook body, _ => ⟨.setupHook body, rfl⟩
  | .teardownHook body, _ => ⟨.teardownHook body, rfl⟩

/-- Parsing a list of raw blocks with no duplicate hooks anywhere inside
succeeds. -/
theorem parseBlocks_ok_of_noDup : ∀ l : List RawBlock, anyDupList l = false →
    ∃ l', parseBlocks l = .ok l'
  | [], _ => ⟨[], rfl⟩
  | b :: bs, h => by
      have hp : anyDup b = false ∧ anyDupList bs = false := by
        simpa [anyDupList] using h
      obtain ⟨b', hb⟩ := parseBlock_ok_of_noDup b hp.1
      obtain ⟨bs', hbs⟩ := parseBlocks_ok_of_noDup bs hp.2
      exact ⟨b' :: bs', by simp [parseBlocks, hb, hbs]⟩
end

mutual
/-- A duplicate hook anywhere inside a raw block makes its parse fail with
`DuplicateHook`. -/
theorem parseBlock_dup_error : ∀ b : RawBlock, anyDup b = true →
    parseBlock b = .error .DuplicateHook
  | .scope kw n a sg cs, h => by
      have hp : dupDirect cs = true ∨ anyDupList cs = true := by
        simpa [anyDup] using h
      cases hdd : dupDirect cs with
      | true => simp [parseBlock, checkHooks_error_of_dupDirect cs hdd]
      | false =>
          have hl : anyDupList cs = true := by
            rcases hp with hp | hp
            · rw [hp] at hdd; exact absurd hdd (by simp)
            · exact hp
          simp [parseBlock, checkHooks_ok_of_not_dupDirect cs hdd,
            parseBlocks_dup_error cs hl]
  | .unit kw n a sg body, h => by simp [anyDup] at h
  | .setupHook body, h => by simp [anyDup] at h
  | .teardownHook body, h => by simp [anyDup] at h

/-- A duplicate hook anywhere inside a list of raw blocks makes its parse
fail with `DuplicateHook`. -/
theorem parseBlocks_dup_error : ∀ l : List RawBlock, anyDupList l = true →
    parseBlocks l = .error .DuplicateHook
  | [], h => by simp [anyDupList] at h
  | b :: bs, h => by
      have hp : anyDup b = true ∨ anyDupList bs = true := by
        simpa [anyDupList] using h
      cases hab : anyDup b with
      | true => simp [parseBlocks, parseBlock_dup_error b hab]
      | false =>
          have hbs : anyDupList bs = true := by
            rcases hp with hp | hp
            · rw [hp] at hab; exact absurd hab (by simp)
            · exact hp
          obtain ⟨b', hb'⟩ := parseBlock_ok_of_noDup b hab
          simp [parseBlocks, hb', parseBlocks_dup_error bs hbs]
end

/-- Claim C5: whenever a second setup hook or a second teardown hook occurs
among the direct children of the root or of any scope in the input, the
entry point fails with the `DuplicateHook` error and emits no output. -/
theorem duplicate_hook_aborts (input : List RawBlock)
    (h : dupDirect input = true ∨ anyDupList input = true) :
    demonstrate input = .error .DuplicateHook := by
  cases hdd : dupDirect input with
  | true =>
      simp [demonstrate, parseRoot, checkHooks_error_of_dupDirect input hdd]
  | false =>
      have hl : anyDupList input = true := by
        rcases h with h | h
        · rw [h] at hdd; exact absurd hdd (by simp)
        · exact h
      simp [demonstrate, parseRoot, checkHooks_ok_of_not_dupDirect input hdd,
        parseBlocks_dup_error input hl]

/-- Witness for C5: two setup hooks directly inside one scope make the entry
point fail with `DuplicateHook`. -/
theorem duplicate_hook_aborts_witness :
    (dupDirect
        [RawBlock.scope .describeKw "s" [] none
          [RawBlock.setupHook ["a"], RawBlock.setupHook ["b"]]] = true ∨
      anyDupList
        [RawBlock.scope .describeKw "s" [] none
          [RawBlock.setupHook ["a"], RawBlock.setupHook ["b"]]] = true) ∧
    demonstrate
        [RawBlock.scope .describeKw "s" [] none
          [RawBlock.setupHook ["a"], RawBlock.setupHook ["b"]]] =
      .error .DuplicateHook :=
  ⟨Or.inr rfl, duplicate_hook_aborts _ (Or.inr rfl)⟩

mutual
/-- Erase the introducing keywords from a raw block, keeping everything
else.  Two raw blocks with equal erasures differ at most in the choice of
`describe` versus `context` and `it` versus `test` at each block. -/
def eraseKw : RawBlock → Block
  | .scope _ n a s cs => .scope n a s (eraseKwList cs)
  | .unit _ n a s b => .unit n a s b
  | .setupHook b => .setupHook b
  | .teardownHook b => .teardownHook b

/-- Erase the introducing keywords from each raw block of a list. -/
def eraseKwList : List RawBlock → List Block
  | [] => []
  | b :: bs => eraseKw b :: eraseKwList bs
end

/-- The duplicate-hook scan only looks at which children are hooks, so it
cannot tell apart inputs that differ only in keyword choice. -/
theorem checkHooks_eraseKw :
    ∀ (l l' : List RawBlock), eraseKwList l = eraseKwList l' →
      ∀ s t, checkHooks s t l = checkHooks s t l' := by
  intro l
  induction l with
  | nil =>
      intro l' h s t
      cases l' with
      | nil => rfl
      | cons b' bs' => simp [eraseKwList] at h
  | cons b bs ih =>
      intro l' h s t
      cases l' with
      | nil => simp [eraseKwList] at h
      | cons b' bs' =>
          simp only [eraseKwList, List.cons.injEq] at h
          obtain ⟨h1, h2⟩ := h
          cases b <;> cases b' <;>
            first
            | exact Block.noConfusion h1
            | exact ih bs' h2 s t
            | (cases s with
               | true => rfl
               | false => exact ih bs' h2 true t)
            | (cases t with
               | true => rfl
               | false => exact ih bs' h2 s true)

mutual
/-- Parsing cannot tell apart raw blocks that differ only in keyword
choice: the keyword synonyms produce the same parsed variant. -/
theorem parseBlock_eraseKw : ∀ (b b' : RawBlock), eraseKw b = eraseKw b' →
    parseBlock b = parseBlock b'
  | .scope kw n a sg cs, .scope kw' n' a' sg' cs', h => by
      simp only [eraseKw, Block.scope.injEq] at h
      obtain ⟨hn, ha, hsg, hcs⟩ := h
      subst hn; subst ha; subst hsg
      simp only [parseBlock]
      rw [checkHooks_eraseKw cs cs' hcs false false,
        parseBlocks_eraseKw cs cs' hcs]
  | .scope kw n a sg cs, .unit kw' n' a' sg' b', h => by simp [eraseKw] at h
  | .scope kw n a sg cs, .setupHook b', h => by simp [eraseKw] at h
  | .scope kw n a sg cs, .teardownHook b', h => by simp [eraseKw] at h
  | .unit kw n a sg b, .scope kw' n' a' sg' cs', h => by simp [eraseKw] at h
  | .unit kw n a sg b, .unit kw' n' a' sg' b', h => by
      simp only [eraseKw, Block.unit.injEq] at h
      obtain ⟨hn, ha, hsg, hb⟩ := h
      subst hn; subst ha; subst hsg; subst hb
      rfl
  | .unit kw n a sg b, .setupHook b', h => by simp [eraseKw] at h
  | .unit kw n a sg b, .teardownHook b', h => by simp [eraseKw] at h
  | .setupHook b, .scope kw' n' a' sg' cs', h => by simp [eraseKw] at h
  | .setupHook b, .unit kw' n' a' sg' b', h => by simp [eraseKw] at h
  | .setupHook b, .setupHook b', h => by
      simp only [eraseKw, Block.setupHook.injEq] at h
      subst h
      rfl
  | .setupHook b, .teardownHook b', h => by simp [eraseKw] at h
  | .teardownHook b, .scope kw' n' a' sg' cs', h => by simp [eraseKw] at h
  | .teardownHook b, .unit kw' n' a' sg' b', h => by simp [eraseKw] at h
  | .teardownHook b, .setupHook b', h => by simp [eraseKw] at h
  | .teardownHook b, .teardownHook b', h => by
      simp only [eraseKw, Block.teardownHook.injEq] at h
      subst h
      rfl

/-- Parsing a list of raw blocks cannot tell apart keyword choices. -/
theorem parseBlocks_eraseKw : ∀ (l l' : List RawBlock),
    eraseKwList l = eraseKwList l' → parseBlocks l = parseBlocks l'
  | [], [], _ => rfl
  | [], b' :: bs', h => by simp [eraseKwList] at h
  | b :: bs, [], h => by simp [eraseKwList] at h
  | b :: bs, b' :: bs', h => by
      simp only [eraseKwList, List.cons.injEq] at h
      simp only [parseBlocks]
      rw [parseBlock_eraseKw b b' h.1, parseBlocks_eraseKw bs bs' h.2]
end

/-- Claim C8: replacing `describe` by `context`, or `it` by `test`, at any
blocks of the input (any two inputs with equal keyword erasures) yields the
same parsed tree and hence the same generated output. -/
theorem keyword_synonyms (input input' : List RawBlock)
    (h : eraseKwList input = eraseKwList input') :
    parseRoot input = parseRoot input' ∧
    demonstrate input = demonstrate input' := by
  have hp : parseRoot input = parseRoot input' := by
    simp only [parseRoot]
    rw [checkHooks_eraseKw input input' h false false,
      parseBlocks_eraseKw input input' h]
  exact ⟨hp, by simp only [demonstrate, hp]⟩

/-- Witness for C8: swapping `describe` for `context` and `it` for `test`
in a two-block input changes neither the parsed tree nor the output. -/
theorem keyword_synonyms_witness :
    eraseKwList
        [RawBlock.scope .describeKw "s" [] none
          [RawBlock.unit .itKw "u" [] none ["stmt"]]] =
      eraseKwList
        [RawBlock.scope .contextKw "s" [] none
          [RawBlock.unit .testKw "u" [] none ["stmt"]]] ∧
    parseRoot
        [RawBlock.scope .describeKw "s" [] none
          [RawBlock.unit .itKw "u" [] none ["stmt"]]] =
      parseRoot
        [RawBlock.scope .contextKw "s" [] none
          [RawBlock.unit .testKw "u" [] none ["stmt"]]] ∧
    demonstrate
        [RawBlock.scope .describeKw "s" [] none
          [RawBlock.unit .itKw "u" [] none ["stmt"]]] =
      demonstrate
        [RawBlock.scope .contextKw "s" [] none
          [RawBlock.unit .testKw "u" [] none ["stmt"]]] :=
  ⟨rfl,
    (keyword_synonyms _ _ rfl).1,
    (keyword_synonyms _ _ rfl).2⟩

end Demonstrate
